import Mathlib

/-!
Verification development for the pdf-tools repository.

The core components embedded here, translated from
`src/acroform/acroform_extractor.py` and `src/acroform/acroform_filler.py`:

* the Coordinate Normalizer (the `page.rect.height - y` conversions),
* the Word Index and the three proximity heuristics of
  `get_contextual_text_for_field` (left-of, above, nearest-overall),
  including the claimed-word bookkeeping,
* the Field Context Assembler,
* the Field Catalog Builder `extract_form_fields` together with the
  Option Decoder `get_field_options`,
* the Form Writer loop of `fill_pdf_form`.

Modelling conventions
* Python floats are modelled as rationals (`ℚ`); every numeric value
  appearing in the programs and claims is exactly representable.
* Fallible external-library calls (`fitz.open`, `page.get_text`,
  `float(..)`, `int(..)`, `pdf.save`) are modelled as `Except String`
  values, the `String` being the exception message; a `try/except`
  block becomes a `match` on the `Except`.
* The PDF document handle is a traced resource: each embedded operation
  also returns the list of open/close events it performs on its own
  handle, so that resource claims are statable.
* `pikepdf.String` construction is total; `pikepdf.Name` construction
  (`pikepdfName`) raises `ValueError` unless the name begins with `"/"`,
  as in pikepdf, and assigning a Python `str` to a dictionary entry
  writes a pikepdf String.
-/

namespace PdfTools

/-- Handle events performed by an operation on the PDF document handle it
opens (`fitz.open` / `pikepdf.Pdf.open` and the corresponding `close`). -/
inductive Ev where
  | openDoc : Ev
  | closeDoc : Ev
deriving DecidableEq, Repr

/-- A PyMuPDF word tuple `[x0, y0, x1, y1, "word", block_no, line_no, word_no]`
(top-origin y coordinates). -/
structure Word where
  x0 : ℚ
  y0 : ℚ
  x1 : ℚ
  y1 : ℚ
  text : String
  block : ℕ
  line : ℕ
  word : ℕ
deriving DecidableEq, Repr

/-- The stable identity `(block_no, line_no, word_no)` of a word. -/
abbrev WordId := ℕ × ℕ × ℕ

/-- `word_id = (block_no, line_no, word_no)`. -/
def Word.wid (w : Word) : WordId := (w.block, w.line, w.word)

/-- Coordinate Normalizer: the `page.rect.height - y` conversion between the
bottom-origin (pikepdf) and top-origin (PyMuPDF) y axes, used at
`field_top_y_pymu = page.rect.height - f_ury` and the word-center
conversion `page.rect.height - word_center_y_pymu`. -/
def normalize (H y : ℚ) : ℚ := H - y

/-- `MAX_RELEVANT_DISTANCE_SQ_OVERALL = 150*150`. -/
def MAX_RELEVANT_DISTANCE_SQ_OVERALL : ℚ := 150 * 150

/-- `SEARCH_MARGIN_X_LEFT = 70`. -/
def SEARCH_MARGIN_X_LEFT : ℚ := 70

/-- `VERTICAL_ALIGNMENT_TOLERANCE = 10`. -/
def VERTICAL_ALIGNMENT_TOLERANCE : ℚ := 10

/-- `SEARCH_MARGIN_Y_ABOVE = 30`. -/
def SEARCH_MARGIN_Y_ABOVE : ℚ := 30

/-- `HORIZONTAL_ALIGNMENT_TOLERANCE = 50`. -/
def HORIZONTAL_ALIGNMENT_TOLERANCE : ℚ := 50

/-- Qualification test of the left-of heuristic: `w_x1 < f_x0`, within the
horizontal margin, and vertically aligned (word bottom near field top, or
word top near field bottom, or y-spans overlap). -/
def leftQualifies (H fx0 flly fury : ℚ) (w : Word) : Bool :=
  let fieldTop := normalize H fury
  let fieldBottom := normalize H flly
  decide (w.x1 < fx0) && decide (fx0 - w.x1 < SEARCH_MARGIN_X_LEFT) &&
    (decide (|w.y1 - fieldTop| < VERTICAL_ALIGNMENT_TOLERANCE) ||
     decide (|w.y0 - fieldBottom| < VERTICAL_ALIGNMENT_TOLERANCE) ||
     (decide (w.y0 < fieldBottom) && decide (w.y1 > fieldTop)))

/-- Sort order of the left-of heuristic: `key=lambda x: (-x['x1'], x['y0'])`
(rightmost edge first, then topmost). -/
def leftLe (a b : Word) : Bool :=
  decide (a.x1 > b.x1 ∨ (a.x1 = b.x1 ∧ a.y0 ≤ b.y0))

/-- The words claimed by the left-of heuristic: qualifying words, sorted,
first three kept. -/
def leftTop (H fx0 flly fury : ℚ) (words : List Word) : List Word :=
  ((words.filter (leftQualifies H fx0 flly fury)).mergeSort leftLe).take 3

/-- Qualification test of the above heuristic: word bottom strictly above the
field top, within the vertical margin, and horizontal spans overlapping up
to the 50-unit tolerance. -/
def aboveQualifies (H fx0 fx1 fury : ℚ) (w : Word) : Bool :=
  let fieldTop := normalize H fury
  decide (w.y1 < fieldTop) && decide (fieldTop - w.y1 < SEARCH_MARGIN_Y_ABOVE) &&
    decide (max fx0 w.x0 < min fx1 w.x1 + HORIZONTAL_ALIGNMENT_TOLERANCE)

/-- Sort order of the above heuristic: `key=lambda x: (-x['y1'], x['x0'])`
(bottom-most first, then leftmost). -/
def aboveLe (a b : Word) : Bool :=
  decide (a.y1 > b.y1 ∨ (a.y1 = b.y1 ∧ a.x0 ≤ b.x0))

/-- The words kept by the above heuristic: unclaimed qualifying words,
sorted, first three kept. -/
def aboveTop (H fx0 fx1 fury : ℚ) (claimed : List WordId) (words : List Word) :
    List Word :=
  ((words.filter (fun w =>
      !(decide (w.wid ∈ claimed)) && aboveQualifies H fx0 fx1 fury w)).mergeSort
    aboveLe).take 3

/-- Squared Euclidean distance between the word center (converted to
bottom-origin y) and the field-rectangle center. -/
def distSq (H fx0 flly fx1 fury : ℚ) (w : Word) : ℚ :=
  let fieldCenterX := (fx0 + fx1) / 2
  let fieldCenterY := (flly + fury) / 2
  let wordCenterX := (w.x0 + w.x1) / 2
  let wordCenterY := normalize H ((w.y0 + w.y1) / 2)
  let dx := wordCenterX - fieldCenterX
  let dy := wordCenterY - fieldCenterY
  dx * dx + dy * dy

/-- Qualification test of the nearest-overall heuristic. -/
def closestQualifies (H fx0 flly fx1 fury : ℚ) (w : Word) : Bool :=
  decide (distSq H fx0 flly fx1 fury w < MAX_RELEVANT_DISTANCE_SQ_OVERALL)

/-- Sort order of the nearest-overall heuristic: ascending squared distance. -/
def closestLe (H fx0 flly fx1 fury : ℚ) (a b : Word) : Bool :=
  decide (distSq H fx0 flly fx1 fury a ≤ distSq H fx0 flly fx1 fury b)

/-- The words kept by the nearest-overall heuristic: unclaimed qualifying
words, sorted by distance, first three kept. -/
def closestTop (H fx0 flly fx1 fury : ℚ) (claimed : List WordId)
    (words : List Word) : List Word :=
  ((words.filter (fun w =>
      !(decide (w.wid ∈ claimed)) &&
        closestQualifies H fx0 flly fx1 fury w)).mergeSort
    (closestLe H fx0 flly fx1 fury)).take 3

/-- The outputs of the three heuristic passes in their evaluation order
(left first, then above, then nearest-overall), with the claimed-word
bookkeeping threaded between the passes. -/
structure ContextParts where
  left : List Word
  above : List Word
  closest : List Word
deriving DecidableEq, Repr

/-- One full run of the three heuristic passes for a field rectangle
`[f_x0, f_lly, f_x1, f_ury]` on a page of height `H`. -/
def contextParts (H fx0 flly fx1 fury : ℚ) (words : List Word) : ContextParts :=
  let lt := leftTop H fx0 flly fury words
  let claimed1 := lt.map Word.wid
  let ab := aboveTop H fx0 fx1 fury claimed1 words
  let claimed2 := claimed1 ++ ab.map Word.wid
  let cl := closestTop H fx0 flly fx1 fury claimed2 words
  ⟨lt, ab, cl⟩

/-- The sentinel returned when no heuristic produced any words. -/
def noContextSentinel : String :=
  "No distinct contextual text found nearby (or heuristics need tuning)."

/-- Field Context Assembler: segments `Closest / Left / Above` in that fixed
order, each included only when non-empty, joined by `" | "`; the sentinel
when all are empty. -/
def assembleContext (H fx0 flly fx1 fury : ℚ) (words : List Word) : String :=
  let p := contextParts H fx0 flly fx1 fury words
  let segs : List String :=
    (if p.closest.isEmpty then []
     else ["Closest: " ++ String.intercalate " " (p.closest.map Word.text)]) ++
    (if p.left.isEmpty then []
     else ["Left: " ++ String.intercalate " " (p.left.map Word.text)]) ++
    (if p.above.isEmpty then []
     else ["Above: " ++ String.intercalate " " (p.above.map Word.text)])
  if segs.isEmpty then noContextSentinel else String.intercalate " | " segs

/-- Restatement of the spec's assembly clause, for comparison with the
code-derived `assembleContext`: up to three segments
`"Closest: <words>"`, `"Left: <words>"`, `"Above: <words>"`, each included
only when non-empty, joined with `" | "` in that fixed order; the
no-context sentinel when none is non-empty. -/
def specAssembleContext (closest left above : List String) : String :=
  let segs : List String :=
    (if closest = [] then []
     else ["Closest: " ++ String.intercalate " " closest]) ++
    (if left = [] then []
     else ["Left: " ++ String.intercalate " " left]) ++
    (if above = [] then []
     else ["Above: " ++ String.intercalate " " above])
  if segs = [] then noContextSentinel else String.intercalate " | " segs

/-- A PyMuPDF page: its height and the result of `page.get_text("words")`
(`Except.error` when that call raises, carrying the exception message). -/
structure Page where
  height : ℚ
  wordsRes : Except String (List Word)

/-- A PyMuPDF document: its page list. -/
structure Doc where
  pages : List Page

/-- Default page used to express in-bounds list indexing. -/
def defaultPage : Page := ⟨0, .ok []⟩

/-- The sentinel returned by the coordinate/page-index validation guard. -/
def invalidSentinel : String :=
  "Invalid page index or field coordinates for contextual analysis."

/-- The prefix of the diagnostic produced by the catch-all handler. -/
def errMarker : String := "Error during contextual text extraction: "

/-- The out-of-bounds diagnostic `f"Page index {page_index} out of bounds
for PyMuPDF."`. -/
def oobSentinel (pageIndex : ℤ) : String :=
  "Page index " ++ toString pageIndex ++ " out of bounds for PyMuPDF."

/-- The body of the `try` block of `get_contextual_text_for_field`: open the
document (`docRes` is `fitz.open`'s outcome), check the page bound, read
the page words, run the heuristics and the assembler. The second component
records the open/close events on the PyMuPDF handle; an `Except.error`
result is an exception escaping the `try` body. -/
def tryBody (docRes : Except String Doc) (pageIndex : ℤ) (rect : List ℚ) :
    Except String String × List Ev :=
  match docRes with
  | .error e => (.error e, [])
  | .ok doc =>
    if (doc.pages.length : ℤ) ≤ pageIndex then
      (.ok (oobSentinel pageIndex), [.openDoc, .closeDoc])
    else
      let page := doc.pages.getD pageIndex.toNat defaultPage
      let fx0 := rect.getD 0 0
      let flly := rect.getD 1 0
      let fx1 := rect.getD 2 0
      let fury := rect.getD 3 0
      match page.wordsRes with
      | .error e => (.error e, [.openDoc])
      | .ok ws =>
        (.ok (assembleContext page.height fx0 flly fx1 fury ws),
         [.openDoc, .closeDoc])

/-- `get_contextual_text_for_field`: the validation guard, then the `try`
body with the catch-all `except` converting any exception into the
`errMarker`-prefixed diagnostic. Returns the produced string together with
the handle events. -/
def get_contextual_text_for_field (docRes : Except String Doc)
    (pageIndex : ℤ) (rect : List ℚ) : String × List Ev :=
  if pageIndex < 0 ∨ rect = [] ∨ rect.length ≠ 4 then
    (invalidSentinel, [])
  else
    match tryBody docRes pageIndex rect with
    | (.ok s, evs) => (s, evs)
    | (.error e, evs) => (errMarker ++ e, evs)

/-! ### Field Catalog Builder (`extract_form_fields`, `get_field_options`) -/

/-- A pikepdf object value, as far as the catalog builder inspects it. -/
inductive PdfVal where
  | num (q : ℚ) : PdfVal
  | str (s : String) : PdfVal
  | nameVal (s : String) : PdfVal
  | arr (items : List PdfVal) : PdfVal
deriving Repr

/-- Python `float(r)` on a pikepdf object: numeric objects convert, anything
else raises `TypeError`. -/
def floatOfVal : PdfVal → Except String ℚ
  | .num q => .ok q
  | _ => .error "TypeError: object cannot be converted to float"

/-- Python `int(v)` on a pikepdf object: numeric objects truncate toward
zero, anything else raises `TypeError`. -/
def intOfVal : PdfVal → Except String ℤ
  | .num q => .ok (if 0 ≤ q then ⌊q⌋ else ⌈q⌉)
  | _ => .error "TypeError: object cannot be converted to int"

/-- Python `str(v)` on a pikepdf object (total). -/
def strOfVal : PdfVal → String
  | .num q => if q.den = 1 then toString q.num else toString q
  | .str s => s
  | .nameVal s => s
  | .arr _ => "[array]"

/-- One entry of the `/Opt` loop of `get_field_options`: plain strings kept;
two-element pairs prefer the second string, then the first, else the
`[Non-string option: ...]` placeholder; names stringified; others skipped. -/
def optItem : PdfVal → List String
  | .str s => [s]
  | .arr [a, b] =>
    match b with
    | .str sb => [sb]
    | _ =>
      match a with
      | .str sa => [sa]
      | _ => ["[Non-string option: " ++ strOfVal a ++ ", " ++ strOfVal b ++ "]"]
  | .nameVal s => [s]
  | _ => []

/-- `get_field_options`: decode the `/Opt` array (anything that is not a
pikepdf array, or an absent `/Opt`, yields no options). -/
def get_field_options (optArray : Option PdfVal) : List String :=
  match optArray with
  | some (.arr items) => items.flatMap optItem
  | _ => []

/-- One raw field entry of the `/AcroForm` `/Fields` array, as far as
`extract_form_fields` reads it: `str(field.get("/T",""))`,
`str(field.get("/FT",""))`, the raw `/Rect`, `/Page` and `/Opt` values
(`none` when absent). -/
structure FieldObj where
  t : String
  ft : String
  rect : Option (List PdfVal)
  page : Option PdfVal
  opt : Option PdfVal

/-- One record of the Field Catalog. -/
structure FieldRecord where
  name : String
  type : String
  rect : List ℚ
  page : String
  opts : List String
  text : String
deriving DecidableEq, Repr

/-- The record `extract_form_fields` builds for one field: the rectangle
coercion `[float(r) for r in field.get("/Rect", [])]` and the page
coercion `int(field.get("/Page", 0))` may raise, and the exception then
escapes `extract_form_fields`, which has no handler. -/
def buildRecord (docRes : Except String Doc) (f : FieldObj) :
    Except String FieldRecord :=
  match (f.rect.getD []).mapM floatOfVal with
  | .error e => .error e
  | .ok rect =>
    match intOfVal (f.page.getD (.num 0)) with
    | .error e => .error e
    | .ok pg =>
      .ok
        { name := f.t
          type := f.ft
          rect := rect
          page := strOfVal (f.page.getD (.num 0))
          opts := get_field_options f.opt
          text := (get_contextual_text_for_field docRes pg rect).1 }

/-- The pikepdf view of the document: `none` when `/AcroForm` is absent,
otherwise the `/Fields` entries (an absent `/Fields` gives `some []`). -/
structure PikePdf where
  acroFields : Option (List FieldObj)

/-- `extract_form_fields`: opens the pikepdf handle, returns `[]` when there
is no `/AcroForm`, otherwise one record per field in source order; a
coercion exception aborts the whole extraction. The event list records
what happens to the pikepdf handle (it is never closed). -/
def extract_form_fields (pike : PikePdf) (docRes : Except String Doc) :
    Except String (List FieldRecord) × List Ev :=
  match pike.acroFields with
  | none => (.ok [], [.openDoc])
  | some fs => (fs.mapM (buildRecord docRes), [.openDoc])

/-! ### Form Writer (`fill_pdf_form`) -/

/-- A value of the field-to-value mapping: a JSON boolean or string. -/
inductive FillVal where
  | bool (b : Bool) : FillVal
  | str (s : String) : FillVal
deriving DecidableEq, Repr

/-- Python `str(value)` on a mapping value. -/
def strOfFill : FillVal → String
  | .bool true => "True"
  | .bool false => "False"
  | .str s => s

/-- A value written into a field dictionary: a pikepdf Name or a pikepdf
String.  Appearance-state keys read from `n_dict.keys()` are Python `str`
values (in `str()` form, with leading slash) and are written back as
pikepdf Strings. -/
inductive FVal where
  | nm (s : String) : FVal
  | st (s : String) : FVal
deriving DecidableEq, Repr

/-- `pikepdf.Name(s)`: constructing a name that does not begin with `"/"`
raises `ValueError`. -/
def pikepdfName (s : String) : Except String FVal :=
  if s.data.head? = some '/' then .ok (.nm s)
  else .error "ValueError: Name objects must begin with '/'"

/-- The `/AP` → `/N` appearance-state dictionary of a button field, as far
as the filler inspects it: absent (no `/AP`, empty `/AP`, or no `/N`),
present but without a `keys` attribute, or a dictionary whose keys are the
listed `str()` forms. -/
inductive ApN where
  | absent : ApN
  | noKeys : ApN
  | dict (keys : List String) : ApN
deriving DecidableEq, Repr

/-- One field dictionary as the filler sees and updates it. -/
structure FillField where
  t : String
  ft : String
  ap : ApN
  valV : Option FVal
  valAS : Option FVal
deriving DecidableEq, Repr

/-- The per-field write of `fill_pdf_form` (the body of the inner `try`):
text and choice fields take the string coercion into `/V`; a button field
with boolean `true` writes the first appearance-state key whose `str()`
form differs from `"/Off"` (a `str`, hence a pikepdf String) to both `/V`
and `/AS`, and otherwise falls into `pikepdf.Name("Yes")` — which raises,
there being no leading slash; boolean `false` likewise reaches
`pikepdf.Name("Off")`, which raises; non-booleans and unknown types take
the string coercion.  An `Except.error` is the exception the per-field
handler catches. -/
def applyValue (f : FillField) (v : FillVal) : Except String FillField :=
  if f.ft = "/Tx" then .ok { f with valV := some (.st (strOfFill v)) }
  else if f.ft = "/Ch" then .ok { f with valV := some (.st (strOfFill v)) }
  else if f.ft = "/Btn" then
    match v with
    | .bool true =>
      match f.ap with
      | .dict keys =>
        match keys.find? (fun k => k ≠ "/Off") with
        | some k => .ok { f with valV := some (.st k), valAS := some (.st k) }
        | none =>
          match pikepdfName "Yes" with
          | .ok w => .ok { f with valV := some w, valAS := some w }
          | .error e => .error e
      | _ =>
        match pikepdfName "Yes" with
        | .ok w => .ok { f with valV := some w, valAS := some w }
        | .error e => .error e
    | .bool false =>
      match pikepdfName "Off" with
      | .ok w => .ok { f with valV := some w, valAS := some w }
      | .error e => .error e
    | .str _ => .ok { f with valV := some (.st (strOfFill v)) }
  else .ok { f with valV := some (.st (strOfFill v)) }

/-- The console messages the field loop prints. -/
inductive LogEv where
  | filled (fieldName : String) : LogEv
  | warnCouldNotFill (fieldName : String) : LogEv
  | infoNoMapping (fieldName : String) : LogEv
deriving DecidableEq, Repr

/-- The field name a log message is about. -/
def evName : LogEv → String
  | .filled n => n
  | .warnCouldNotFill n => n
  | .infoNoMapping n => n

/-- Python dict lookup `field_mapping[field_name]` over the mapping's
key/value pairs (keys are unique in a dict; the first match is taken). -/
def lookupMapping (m : List (String × FillVal)) (k : String) : Option FillVal :=
  (m.find? (fun p => p.1 = k)).map Prod.snd

/-- One iteration of the field loop of `fill_pdf_form`: a field whose name
is in the mapping is written to and logged as filled — unless the write
raises, in which case the per-field handler logs the could-not-fill
warning and the field keeps its state; any other field is left untouched
and logged with the no-mapping info message. -/
def fillStep (m : List (String × FillVal)) (f : FillField) :
    FillField × LogEv :=
  match lookupMapping m f.t with
  | some v =>
    match applyValue f v with
    | .ok f2 => (f2, .filled f.t)
    | .error _ => (f, .warnCouldNotFill f.t)
  | none => (f, .infoNoMapping f.t)

/-- The whole field loop: resulting field states in order. -/
def fillFields (m : List (String × FillVal)) (fs : List FillField) :
    List FillField :=
  fs.map (fun f => (fillStep m f).1)

/-- The whole field loop: console messages in order. -/
def fillLog (m : List (String × FillVal)) (fs : List FillField) :
    List LogEv :=
  fs.map (fun f => (fillStep m f).2)

/-- The pikepdf view seen by `fill_pdf_form`: the `/AcroForm` `/Fields`
entries (or `none` when `/AcroForm` is absent) and the outcome of
`pdf.save` (`Except.error` when saving raises). -/
structure FillDoc where
  acro : Option (List FillField)
  saveRes : Except String Unit

/-- `fill_pdf_form` from the point where the mapping is a dictionary: open
the PDF (`docRes` is `pikepdf.Pdf.open`'s outcome), bail out when there is
no `/AcroForm`, run the field loop, save, close, return `True`; any
exception is caught by the outer handler, which returns `False`. Returns
the success flag, the resulting field states, and the handle events. -/
def fill_pdf_form (docRes : Except String FillDoc)
    (m : List (String × FillVal)) : Bool × List FillField × List Ev :=
  match docRes with
  | .error _ => (false, [], [])
  | .ok doc =>
    match doc.acro with
    | none => (false, [], [.openDoc, .closeDoc])
    | some fs =>
      let res := fillFields m fs
      match doc.saveRes with
      | .error _ => (false, res, [.openDoc])
      | .ok _ => (true, res, [.openDoc, .closeDoc])

/-! ### Concrete data reused by witnesses -/

/-- The word `"Name:"` of the end-to-end scenario, top-origin box
`(30, 75, 65, 85)`, identity `(0, 0, 0)`. -/
def wNameTok : Word := ⟨30, 75, 65, 85, "Name:", 0, 0, 0⟩

/-- A single page of height 792 carrying only `wNameTok`. -/
def scenarioDoc : Doc := ⟨[⟨792, .ok [wNameTok]⟩]⟩

/-- A concrete `/Btn` field whose appearance dictionary has states
`/Off` and `/On`. -/
def fldBtn : FillField := ⟨"Agree", "/Btn", .dict ["/Off", "/On"], none, none⟩

/-- A concrete text field named `"Y"`. -/
def fldY : FillField := ⟨"Y", "/Tx", .absent, none, none⟩

/-- A raw field whose `/Rect` contains a name object, which `float()`
cannot convert. -/
def fldBadRect : FieldObj :=
  ⟨"A", "/Tx", some [.nameVal "/x", .num 0, .num 1, .num 1], none, none⟩

/-- A raw field whose `/Rect` and `/Page` entries are all numeric. -/
def fldGood : FieldObj :=
  ⟨"A", "/Tx", some [.num 0, .num 0, .num 1, .num 1], some (.num 0), none⟩

/-- A pikepdf view whose `pdf.save` raises. -/
def fillDocSaveFail : FillDoc := ⟨some [fldY], .error "disk full"⟩

/-! ### Helper lemmas -/

/-- Words kept by the above heuristic were not previously claimed. -/
theorem aboveTop_unclaimed {H fx0 fx1 fury : ℚ} {claimed : List WordId}
    {words : List Word} {w : Word}
    (h : w ∈ aboveTop H fx0 fx1 fury claimed words) : w.wid ∉ claimed := by
  simp only [aboveTop] at h
  have h2 := List.mem_mergeSort.mp (List.mem_of_mem_take h)
  have h3 := (List.mem_filter.mp h2).2
  simp only [Bool.and_eq_true, Bool.not_eq_true', decide_eq_false_iff_not] at h3
  exact h3.1

/-- Words kept by the nearest-overall heuristic were not previously
claimed. -/
theorem closestTop_unclaimed {H fx0 flly fx1 fury : ℚ} {claimed : List WordId}
    {words : List Word} {w : Word}
    (h : w ∈ closestTop H fx0 flly fx1 fury claimed words) :
    w.wid ∉ claimed := by
  simp only [closestTop] at h
  have h2 := List.mem_mergeSort.mp (List.mem_of_mem_take h)
  have h3 := (List.mem_filter.mp h2).2
  simp only [Bool.and_eq_true, Bool.not_eq_true', decide_eq_false_iff_not] at h3
  exact h3.1

/-- The left pass of `contextParts`. -/
theorem contextParts_left (H fx0 flly fx1 fury : ℚ) (words : List Word) :
    (contextParts H fx0 flly fx1 fury words).left =
      leftTop H fx0 flly fury words := rfl

/-- The above pass of `contextParts`, fed the identities claimed by the
left pass. -/
theorem contextParts_above (H fx0 flly fx1 fury : ℚ) (words : List Word) :
    (contextParts H fx0 flly fx1 fury words).above =
      aboveTop H fx0 fx1 fury
        ((leftTop H fx0 flly fury words).map Word.wid) words := rfl

/-- The nearest-overall pass of `contextParts`, fed the identities claimed
by the left and above passes. -/
theorem contextParts_closest (H fx0 flly fx1 fury : ℚ) (words : List Word) :
    (contextParts H fx0 flly fx1 fury words).closest =
      closestTop H fx0 flly fx1 fury
        ((leftTop H fx0 flly fury words).map Word.wid ++
          (aboveTop H fx0 fx1 fury
            ((leftTop H fx0 flly fury words).map Word.wid) words).map Word.wid)
        words := rfl

/-! ### Claims -/

/-- C1: within one invocation of the context computation, each word identity
contributes to at most one heuristic's output, first-heuristic-wins in the
order left, above, nearest-overall: an identity claimed by the left pass
appears in neither the above nor the nearest-overall output, and an
identity claimed by the above pass does not appear in the nearest-overall
output. -/
theorem claimed_word_first_heuristic_wins (H fx0 flly fx1 fury : ℚ)
    (words : List Word) (i : WordId) :
    (i ∈ (contextParts H fx0 flly fx1 fury words).left.map Word.wid →
      i ∉ (contextParts H fx0 flly fx1 fury words).above.map Word.wid ∧
      i ∉ (contextParts H fx0 flly fx1 fury words).closest.map Word.wid) ∧
    (i ∈ (contextParts H fx0 flly fx1 fury words).above.map Word.wid →
      i ∉ (contextParts H fx0 flly fx1 fury words).closest.map Word.wid) := by
  have hA := contextParts_above H fx0 flly fx1 fury words
  have hC := contextParts_closest H fx0 flly fx1 fury words
  have hL := contextParts_left H fx0 flly fx1 fury words
  constructor
  · intro hl
    have hl' : i ∈ (leftTop H fx0 flly fury words).map Word.wid := by
      rw [← hL]; exact hl
    constructor
    · intro ha
      rw [hA, List.mem_map] at ha
      obtain ⟨w, hw, hwid⟩ := ha
      have h2 := aboveTop_unclaimed hw
      rw [hwid] at h2
      exact h2 hl'
    · intro hc
      rw [hC, List.mem_map] at hc
      obtain ⟨w, hw, hwid⟩ := hc
      have h2 := closestTop_unclaimed hw
      rw [hwid] at h2
      exact h2 (List.mem_append_left _ hl')
  · intro ha hc
    rw [hC, List.mem_map] at hc
    obtain ⟨w, hw, hwid⟩ := hc
    have h2 := closestTop_unclaimed hw
    rw [hwid] at h2
    apply h2
    apply List.mem_append_right
    rw [hA] at ha
    exact ha

/-- C1 witness: in the end-to-end scenario, the identity `(0,0,0)` is
claimed by the left pass, hence absent from the other two outputs. -/
theorem claimed_word_first_heuristic_wins_witness :
    ((0, 0, 0) : WordId) ∉
        (contextParts 792 100 700 200 715 [wNameTok]).above.map Word.wid ∧
    ((0, 0, 0) : WordId) ∉
        (contextParts 792 100 700 200 715 [wNameTok]).closest.map Word.wid :=
  (claimed_word_first_heuristic_wins 792 100 700 200 715 [wNameTok] (0, 0, 0)).1
    (by with_unfolding_all decide)

/-- C2: the end-to-end scenario — one word `"Name:"` at top-origin box
`(30,75,65,85)` on a page of height 792, field rectangle `(100,700,200,715)`
(bottom-origin), page index 0 — yields exactly `"Left: Name:"`: the word is
claimed by the left heuristic and therefore excluded from the `Closest`
segment even though its center is within the 150-unit radius. -/
theorem scenario_left_name :
    (get_contextual_text_for_field (.ok scenarioDoc) 0 [100, 700, 200, 715]).1 =
        "Left: Name:" ∧
    distSq 792 100 700 200 715 wNameTok < MAX_RELEVANT_DISTANCE_SQ_OVERALL := by
  with_unfolding_all decide

/-- C7: the Coordinate Normalizer `y ↦ H - y` is self-inverse for every
`y` and every `H ≥ 0`. -/
theorem normalize_self_inverse (y H : ℚ) (h : 0 ≤ H) :
    normalize H (normalize H y) = y := by
  unfold normalize; ring

/-- C7 witness: at `H = 792`, `y = 77`. -/
theorem normalize_self_inverse_witness :
    (0 : ℚ) ≤ 792 ∧ normalize 792 (normalize 792 77) = 77 :=
  ⟨by norm_num, normalize_self_inverse 77 792 (by norm_num)⟩

/-- C3: `get_contextual_text_for_field` is total past its boundary: on a
negative page index, an empty rectangle, or a rectangle without exactly 4
coordinates it returns the invalid-input sentinel (performing no document
access); any exception of the `try` body is converted to a string prefixed
with the error marker; and every result is the invalid sentinel, an
error-marker-prefixed diagnostic, or the string the body produced. -/
theorem contextual_text_total_with_sentinels (docRes : Except String Doc)
    (pi : ℤ) (rect : List ℚ) :
    ((pi < 0 ∨ rect = [] ∨ rect.length ≠ 4) →
      get_contextual_text_for_field docRes pi rect = (invalidSentinel, [])) ∧
    (∀ e evs, ¬(pi < 0 ∨ rect = [] ∨ rect.length ≠ 4) →
      tryBody docRes pi rect = (.error e, evs) →
      get_contextual_text_for_field docRes pi rect = (errMarker ++ e, evs)) ∧
    (∃ s evs, get_contextual_text_for_field docRes pi rect = (s, evs) ∧
      (s = invalidSentinel ∨ (∃ e, s = errMarker ++ e) ∨
        ∃ evs2, tryBody docRes pi rect = (.ok s, evs2))) := by
  refine ⟨?_, ?_, ?_⟩
  · intro hg
    simp [get_contextual_text_for_field, hg]
  · intro e evs hg htry
    simp [get_contextual_text_for_field, hg, htry]
  · by_cases hg : (pi < 0 ∨ rect = [] ∨ rect.length ≠ 4)
    · exact ⟨invalidSentinel, [],
        by simp [get_contextual_text_for_field, hg], .inl rfl⟩
    · rcases htry : tryBody docRes pi rect with ⟨r, evs⟩
      cases r with
      | ok s =>
        exact ⟨s, evs, by simp [get_contextual_text_for_field, hg, htry],
          .inr (.inr ⟨evs, rfl⟩)⟩
      | error e =>
        exact ⟨errMarker ++ e, evs,
          by simp [get_contextual_text_for_field, hg, htry],
          .inr (.inl ⟨e, rfl⟩)⟩

/-- C3 witness: a negative page index yields the invalid-input sentinel; a
failing `fitz.open` yields the error-marker diagnostic carrying the
exception message. -/
theorem contextual_text_total_with_sentinels_witness :
    get_contextual_text_for_field (.error "io failure") (-1) [] =
        (invalidSentinel, []) ∧
    get_contextual_text_for_field (.error "io failure") 0 [0, 0, 1, 1] =
        (errMarker ++ "io failure", []) :=
  ⟨(contextual_text_total_with_sentinels (.error "io failure") (-1) []).1
      (Or.inl (by norm_num)),
   (contextual_text_total_with_sentinels
      (.error "io failure") 0 [0, 0, 1, 1]).2.1 "io failure" []
      (by with_unfolding_all decide) rfl⟩

/-- C4: the context string is exactly the spec's assembly — segments
`Closest`, `Left`, `Above` in that fixed order, each included only when
non-empty, joined with `" | "` — and when no word qualifies for any
heuristic's search window the result is the no-context sentinel. -/
theorem context_assembly_order_and_sentinel (H fx0 flly fx1 fury : ℚ)
    (words : List Word) :
    assembleContext H fx0 flly fx1 fury words =
      specAssembleContext
        ((contextParts H fx0 flly fx1 fury words).closest.map Word.text)
        ((contextParts H fx0 flly fx1 fury words).left.map Word.text)
        ((contextParts H fx0 flly fx1 fury words).above.map Word.text) ∧
    ((∀ w ∈ words, leftQualifies H fx0 flly fury w = false ∧
        aboveQualifies H fx0 fx1 fury w = false ∧
        closestQualifies H fx0 flly fx1 fury w = false) →
      assembleContext H fx0 flly fx1 fury words = noContextSentinel) := by
  constructor
  · simp only [assembleContext, specAssembleContext, List.map_eq_nil_iff,
      List.isEmpty_iff]
  · intro h
    have hfL : words.filter (leftQualifies H fx0 flly fury) = [] :=
      List.filter_eq_nil_iff.mpr (fun w hw => by simp [(h w hw).1])
    have hfA : ∀ claimed : List WordId,
        words.filter (fun w =>
          !(decide (w.wid ∈ claimed)) && aboveQualifies H fx0 fx1 fury w) = [] :=
      fun claimed =>
        List.filter_eq_nil_iff.mpr (fun w hw => by simp [(h w hw).2.1])
    have hfC : ∀ claimed : List WordId,
        words.filter (fun w =>
          !(decide (w.wid ∈ claimed)) &&
            closestQualifies H fx0 flly fx1 fury w) = [] :=
      fun claimed =>
        List.filter_eq_nil_iff.mpr (fun w hw => by simp [(h w hw).2.2])
    have hfA0 : words.filter (fun w => aboveQualifies H fx0 fx1 fury w) = [] :=
      List.filter_eq_nil_iff.mpr (fun w hw => by simp [(h w hw).2.1])
    have hfC0 : words.filter
        (fun w => closestQualifies H fx0 flly fx1 fury w) = [] :=
      List.filter_eq_nil_iff.mpr (fun w hw => by simp [(h w hw).2.2])
    simp [assembleContext, contextParts, leftTop, aboveTop, closestTop,
      hfL, hfA, hfC, hfA0, hfC0]

/-- C4 witness: a page with no words at all yields the no-context
sentinel. -/
theorem context_assembly_order_and_sentinel_witness :
    assembleContext 792 0 0 0 0 [] = noContextSentinel :=
  (context_assembly_order_and_sentinel 792 0 0 0 0 []).2 (by simp)

/-- C10: a non-negative page index with a well-formed 4-coordinate
rectangle that is at or beyond the page count makes
`get_contextual_text_for_field` close the document and return the
out-of-bounds diagnostic — a third sentinel, distinct from the
invalid-input sentinel and not of the error-marker-prefixed form. -/
theorem page_oob_sentinel (doc : Doc) (pi : ℤ) (rect : List ℚ)
    (h0 : 0 ≤ pi) (h4 : rect.length = 4)
    (hoob : (doc.pages.length : ℤ) ≤ pi) :
    get_contextual_text_for_field (.ok doc) pi rect =
      (oobSentinel pi, [.openDoc, .closeDoc]) ∧
    oobSentinel pi ≠ invalidSentinel ∧
    ¬ ∃ t, oobSentinel pi = errMarker ++ t := by
  refine ⟨?_, ?_, ?_⟩
  · have hg : ¬(pi < 0 ∨ rect = [] ∨ rect.length ≠ 4) := by
      push_neg
      refine ⟨by omega, ?_, h4⟩
      intro he
      rw [he] at h4
      simp at h4
    simp only [get_contextual_text_for_field, hg, if_false]
    simp only [tryBody, hoob, if_true]
  · intro h
    have h2 := congrArg String.data h
    simp only [oobSentinel, invalidSentinel, String.data_append] at h2
    simp at h2
  · rintro ⟨t, ht⟩
    have h2 := congrArg String.data ht
    simp only [oobSentinel, errMarker, String.data_append] at h2
    simp at h2

/-- C10 witness: page index 5 on the one-page scenario document. -/
theorem page_oob_sentinel_witness :
    get_contextual_text_for_field (.ok scenarioDoc) 5 [0, 0, 1, 1] =
      (oobSentinel 5, [.openDoc, .closeDoc]) :=
  (page_oob_sentinel scenarioDoc 5 [0, 0, 1, 1] (by norm_num)
    (by with_unfolding_all decide) (by with_unfolding_all decide)).1

/-- C5 counterexample: a field whose `/Rect` holds a name object makes
`extract_form_fields` propagate the `float()` coercion exception instead
of returning one record per field. -/
theorem extract_raises_on_uncoercible_rect :
    (extract_form_fields ⟨some [fldBadRect]⟩ (.ok ⟨[]⟩)).1 =
      .error "TypeError: object cannot be converted to float" := rfl

/-- All `buildRecord` calls succeed when every rectangle entry coerces to a
float and every page entry coerces to an integer, giving one record per
field with name and type preserved in order. -/
theorem mapM_buildRecord_ok (docRes : Except String Doc) :
    ∀ fields : List FieldObj,
    (∀ f ∈ fields, (∃ qs, (f.rect.getD []).mapM floatOfVal = .ok qs) ∧
      (∃ n, intOfVal (f.page.getD (.num 0)) = .ok n)) →
    ∃ recs, fields.mapM (buildRecord docRes) = .ok recs ∧
      recs.map FieldRecord.name = fields.map FieldObj.t ∧
      recs.map FieldRecord.type = fields.map FieldObj.ft
  | [], _ => ⟨[], rfl, rfl, rfl⟩
  | f :: fs, h => by
    obtain ⟨⟨qs, hq⟩, ⟨n, hn⟩⟩ := h f (List.mem_cons_self f fs)
    obtain ⟨recs, hm, hname, htype⟩ :=
      mapM_buildRecord_ok docRes fs (fun g hg => h g (List.mem_cons_of_mem f hg))
    have hb : buildRecord docRes f = .ok
        { name := f.t, type := f.ft, rect := qs,
          page := strOfVal (f.page.getD (.num 0)),
          opts := get_field_options f.opt,
          text := (get_contextual_text_for_field docRes n qs).1 } := by
      rw [buildRecord, hq, hn]
    refine ⟨{ name := f.t, type := f.ft, rect := qs, page := strOfVal (f.page.getD (.num 0)), opts := get_field_options f.opt, text := (get_contextual_text_for_field docRes n qs).1 } :: recs, ?_, ?_, ?_⟩
    · rw [List.mapM_cons, hb, hm]
      rfl
    · simp [hname]
    · simp [htype]

/-- C5 amended: catalog building completes with one Field Record per field
in source order whenever every field's `/Rect` entries coerce to floats
and its `/Page` entry coerces to an integer; a field entry violating that
makes the coercion exception propagate out of `extract_form_fields`
(there is no handler), so completion is not unconditional. -/
theorem extract_catalog_completes_when_coercions_succeed
    (fields : List FieldObj) (docRes : Except String Doc)
    (h : ∀ f ∈ fields, (∃ qs, (f.rect.getD []).mapM floatOfVal = .ok qs) ∧
      (∃ n, intOfVal (f.page.getD (.num 0)) = .ok n)) :
    ∃ recs, (extract_form_fields ⟨some fields⟩ docRes).1 = .ok recs ∧
      recs.length = fields.length ∧
      recs.map FieldRecord.name = fields.map FieldObj.t ∧
      recs.map FieldRecord.type = fields.map FieldObj.ft := by
  obtain ⟨recs, hm, hname, htype⟩ := mapM_buildRecord_ok docRes fields h
  refine ⟨recs, hm, ?_, hname, htype⟩
  have h2 := congrArg List.length hname
  simpa using h2

/-- C5 witness: one well-formed field yields exactly one record. -/
theorem extract_catalog_completes_when_coercions_succeed_witness :
    ∃ recs,
      (extract_form_fields ⟨some [fldGood]⟩ (.ok scenarioDoc)).1 = .ok recs ∧
      recs.length = 1 ∧
      recs.map FieldRecord.name = ["A"] ∧
      recs.map FieldRecord.type = ["/Tx"] :=
  extract_catalog_completes_when_coercions_succeed [fldGood] (.ok scenarioDoc)
    (by
      intro f hf
      simp only [List.mem_singleton] at hf
      subst hf
      exact ⟨⟨[0, 0, 1, 1], rfl⟩, ⟨0, rfl⟩⟩)

/-- C6 counterexample: even a fully successful `extract_form_fields` run
returns without ever closing the pikepdf handle it opened. -/
theorem extract_form_fields_never_closes :
    (extract_form_fields ⟨some []⟩ (.ok ⟨[]⟩)).2 = [Ev.openDoc] ∧
    Ev.closeDoc ∉ (extract_form_fields ⟨some []⟩ (.ok ⟨[]⟩)).2 := by
  with_unfolding_all decide

/-- C6 amended: the handle discipline per operation and exit path —
`extract_form_fields` closes its handle on no path at all;
`get_contextual_text_for_field` closes on the in-bounds success path but
not when `page.get_text` raises after the open; `fill_pdf_form` closes on
its no-AcroForm and success paths but not when `pdf.save` raises after
the open. -/
theorem handle_close_per_exit_path :
    (∀ (pike : PikePdf) (docRes : Except String Doc),
      Ev.closeDoc ∉ (extract_form_fields pike docRes).2) ∧
    (∀ (doc : Doc) (pi : ℤ) (rect : List ℚ),
      ¬(pi < 0 ∨ rect = [] ∨ rect.length ≠ 4) →
      pi < (doc.pages.length : ℤ) →
      ((∀ ws, (doc.pages.getD pi.toNat defaultPage).wordsRes = .ok ws →
          (get_contextual_text_for_field (.ok doc) pi rect).2 =
            [.openDoc, .closeDoc]) ∧
       (∀ e, (doc.pages.getD pi.toNat defaultPage).wordsRes = .error e →
          (get_contextual_text_for_field (.ok doc) pi rect).2 =
            [.openDoc]))) ∧
    (∀ (d : FillDoc) (m : List (String × FillVal)),
      (d.acro = none →
        (fill_pdf_form (.ok d) m).2.2 = [.openDoc, .closeDoc]) ∧
      (∀ fs, d.acro = some fs → d.saveRes = .ok () →
        (fill_pdf_form (.ok d) m).2.2 = [.openDoc, .closeDoc]) ∧
      (∀ fs e, d.acro = some fs → d.saveRes = .error e →
        (fill_pdf_form (.ok d) m).2.2 = [.openDoc])) := by
  refine ⟨?_, ?_, ?_⟩
  · intro pike docRes
    rcases pike with ⟨acro⟩
    cases acro <;> simp [extract_form_fields]
  · intro doc pi rect hg hlt
    have hnle : ¬((doc.pages.length : ℤ) ≤ pi) := by omega
    constructor
    · intro ws hws
      simp only [get_contextual_text_for_field, hg, if_false, tryBody,
        hnle, hws]
    · intro e he
      simp only [get_contextual_text_for_field, hg, if_false, tryBody,
        hnle, he]
  · intro d m
    refine ⟨?_, ?_, ?_⟩
    · intro hacro
      simp [fill_pdf_form, hacro]
    · intro fs hacro hsave
      simp [fill_pdf_form, hacro, hsave]
    · intro fs e hacro hsave
      simp [fill_pdf_form, hacro, hsave]

/-- C6 witness: the scenario document's success path closes the handle,
and a failing `pdf.save` leaves the fill handle unclosed. -/
theorem handle_close_per_exit_path_witness :
    (get_contextual_text_for_field (.ok scenarioDoc) 0 [0, 0, 1, 1]).2 =
        [Ev.openDoc, Ev.closeDoc] ∧
    (fill_pdf_form (.ok fillDocSaveFail) []).2.2 = [Ev.openDoc] :=
  ⟨(handle_close_per_exit_path.2.1 scenarioDoc 0 [0, 0, 1, 1]
      (by with_unfolding_all decide) (by with_unfolding_all decide)).1
      [wNameTok] rfl,
   (handle_close_per_exit_path.2.2 fillDocSaveFail []).2.2 [fldY]
      "disk full" rfl rfl⟩

/-- C8: the claim describes the code's evident intent, but the off-state
and fallback writes can never happen: `pikepdf.Name("Off")` and
`pikepdf.Name("Yes")` lack the mandatory leading slash, so the
constructor raises `ValueError`, the per-field handler catches it, and
`/V` and `/AS` stay unwritten.  At the failing input — the checkbox
`fldBtn` filled with `false` — the write raises, the loop logs the
could-not-fill warning and keeps the field's state; only the found-key
path for `true` writes, putting the first non-`"/Off"` appearance key (a
`str`, written as a pikepdf String) into both `/V` and `/AS`. -/
theorem btn_false_write_raises :
    applyValue fldBtn (.bool false) =
      .error "ValueError: Name objects must begin with '/'" ∧
    fillFields [("Agree", FillVal.bool false)] [fldBtn] = [fldBtn] ∧
    fillLog [("Agree", FillVal.bool false)] [fldBtn] =
      [LogEv.warnCouldNotFill "Agree"] ∧
    applyValue fldBtn (.bool true) =
      .ok { fldBtn with valV := some (.st "/On"), valAS := some (.st "/On") } ∧
    pikepdfName "Yes" =
      .error "ValueError: Name objects must begin with '/'" :=
  ⟨rfl, rfl, rfl, rfl, rfl⟩

/-- C9 counterexample: with mapping key `"Extra"` absent from the PDF's
only field `"Y"`, the loop's entire log is the single no-mapping info
message for `"Y"`: no message mentions `"Extra"`, so the unknown key is
ignored silently, not with a warning (no field is written either). -/
theorem fill_unknown_key_silently_ignored :
    ("Extra" ∈ [("Extra", FillVal.str "v")].map Prod.fst ∧
      "Extra" ∉ [fldY].map FillField.t) ∧
    fillLog [("Extra", FillVal.str "v")] [fldY] = [LogEv.infoNoMapping "Y"] ∧
    (fillLog [("Extra", FillVal.str "v")] [fldY]).all
      (fun ev => evName ev ≠ "Extra") = true ∧
    fillFields [("Extra", FillVal.str "v")] [fldY] = [fldY] := by
  with_unfolding_all decide

/-- Removing a mapping key that names no PDF field does not change any
lookup performed by the loop. -/
theorem lookupMapping_filter_ne (k n : String) (hne : n ≠ k) :
    ∀ m : List (String × FillVal),
      lookupMapping (m.filter (fun p => p.1 ≠ k)) n = lookupMapping m n
  | [] => rfl
  | a :: m => by
    by_cases hak : a.1 = k
    · have han : ¬(a.1 = n) := by rw [hak]; exact fun h => hne h.symm
      rw [List.filter_cons_of_neg (by simp [hak])]
      rw [lookupMapping_filter_ne k n hne m]
      simp [lookupMapping, List.find?_cons_of_neg, han]
    · rw [List.filter_cons_of_pos (by simp [hak])]
      by_cases han : a.1 = n
      · simp [lookupMapping, List.find?_cons_of_pos, han]
      · simp only [lookupMapping] at *
        rw [List.find?_cons_of_neg _ (by simp [han]),
          List.find?_cons_of_neg _ (by simp [han])]
        exact lookupMapping_filter_ne k n hne m

/-- C9 amended: fields whose name is absent from the mapping are left
unmodified at their position; every log message is about some field
present in the PDF (so keys not in the PDF's field set are never
mentioned — they are ignored silently, without a warning); and deleting
such a key from the mapping changes neither the resulting fields nor the
log, i.e. it causes no write to any field. -/
theorem fill_frame_and_unknown_keys (m : List (String × FillVal))
    (fs : List FillField) :
    (∀ (i : ℕ) (f : FillField), fs[i]? = some f →
      lookupMapping m f.t = none → (fillFields m fs)[i]? = some f) ∧
    (∀ ev ∈ fillLog m fs, evName ev ∈ fs.map FillField.t) ∧
    (∀ k, k ∉ fs.map FillField.t →
      fillFields (m.filter (fun p => p.1 ≠ k)) fs = fillFields m fs ∧
      fillLog (m.filter (fun p => p.1 ≠ k)) fs = fillLog m fs) := by
  refine ⟨?_, ?_, ?_⟩
  · intro i f hf hlk
    simp [fillFields, List.getElem?_map, hf, fillStep, hlk]
  · intro ev hev
    simp only [fillLog, List.mem_map] at hev
    obtain ⟨f, hf, rfl⟩ := hev
    cases h : lookupMapping m f.t with
    | none =>
      simp only [fillStep, h, evName]
      exact List.mem_map_of_mem _ hf
    | some v =>
      cases h2 : applyValue f v <;>
        simp only [fillStep, h, h2, evName] <;>
        exact List.mem_map_of_mem _ hf
  · intro k hk
    have hstep : ∀ f ∈ fs, fillStep (m.filter (fun p => p.1 ≠ k)) f =
        fillStep m f := by
      intro f hf
      have hne : f.t ≠ k := by
        intro h
        exact hk (h ▸ List.mem_map_of_mem FillField.t hf)
      simp only [fillStep, lookupMapping_filter_ne k f.t hne m]
    constructor
    · exact List.map_congr_left (fun f hf => by rw [hstep f hf])
    · exact List.map_congr_left (fun f hf => by rw [hstep f hf])

/-- C9 witness: the unmapped field `"Y"` keeps its state at position 0. -/
theorem fill_frame_and_unknown_keys_witness :
    (fillFields [("Extra", FillVal.str "v")] [fldY])[0]? = some fldY :=
  (fill_frame_and_unknown_keys [("Extra", FillVal.str "v")] [fldY]).1 0 fldY
    rfl (by with_unfolding_all decide)

end PdfTools
